import Mathlib

/-
Shallow embedding of the service-registry core of `service-registry/main.py`.

The durable Postgres store is modelled as in-memory lists (the `services`
table as a list of records, the `health_checks` table as a list of rows),
the Redis cache as an association list of entries carrying an absolute
expiry instant, and the `service_registry_services_total` Prometheus gauge
as an integer.  Timestamps are integers (seconds); response times are
abstract `Nat` durations (only their presence/absence matters to the
claims).  Network behaviour of a probe is an explicit `ProbeOutcome`
argument: a received HTTP status code with an elapsed duration, a timeout,
or another transport failure with a message.
-/

namespace ServiceRegistry

/-- The `Service` pydantic model: `name`, `host`, `port` required; `path`
defaults to `"/"`; `health_check_url` optional; `tags` defaults to `[]`;
`metadata` (a JSON object) is modelled as a string-keyed association list. -/
structure Service where
  name : String
  host : String
  port : Int
  path : String
  health_check_url : Option String
  tags : List String
  metadata : List (String × String)
  deriving Repr, DecidableEq

/-- The `ServiceStatus` pydantic model returned by `check_service_health`. -/
structure ServiceStatus where
  status : String
  last_check : Option Int
  response_time : Option Nat
  error : Option String
  deriving Repr, DecidableEq

/-- The `ServiceQuery` pydantic model accepted by `list_services`. -/
structure ServiceQuery where
  tags : Option (List String)
  status : Option String
  name_pattern : Option String
  deriving Repr, DecidableEq

/-- One row of the `health_checks` table. -/
structure HealthRow where
  service_name : String
  status : String
  response_time : Option Nat
  error : Option String
  checked_at : Int
  deriving Repr, DecidableEq

/-- The JSON payload stored under `health:{name}` in Redis, also the shape of
the `health` object returned by `get_service`. -/
structure CachedHealth where
  status : String
  last_check : Option Int
  response_time : Option Nat
  error : Option String
  deriving Repr, DecidableEq

/-- A Redis value together with the absolute instant at which it expires
(`setex` stores it with a TTL). -/
structure CacheEntry where
  value : CachedHealth
  expires_at : Int
  deriving Repr, DecidableEq

/-- One row of the `services` table: the service fields plus the
`created_at` / `updated_at` columns. -/
structure ServiceRecord where
  service : Service
  created_at : Int
  updated_at : Int
  deriving Repr, DecidableEq

/-- The shared mutable state: the two Postgres tables, the Redis cache and
the `service_registry_services_total` gauge. -/
structure RegistryState where
  services : List ServiceRecord
  health_checks : List HealthRow
  cache : List (String × CacheEntry)
  service_count : Int
  deriving Repr, DecidableEq

/-- The empty state produced by `init_db` on a fresh database. -/
def initState : RegistryState :=
  { services := [], health_checks := [], cache := [], service_count := 0 }

/-- `CACHE_TTL` environment default (seconds). -/
def CACHE_TTL : Int := 60

/-- Redis `GET` at instant `now`: an entry is visible only before it expires. -/
def redisGet (cache : List (String × CacheEntry)) (key : String) (now : Int) :
    Option CachedHealth :=
  match cache.find? (fun kv => kv.fst == key) with
  | some kv => if now < kv.snd.expires_at then some kv.snd.value else none
  | none => none

/-- Redis `SETEX`: overwrite the value under `key` with expiry `now + ttl`. -/
def redisSetex (cache : List (String × CacheEntry)) (key : String)
    (value : CachedHealth) (ttl : Int) (now : Int) :
    List (String × CacheEntry) :=
  (key, { value := value, expires_at := now + ttl }) ::
    cache.filter (fun kv => kv.fst != key)

/-- Redis `DELETE`. -/
def redisDelete (cache : List (String × CacheEntry)) (key : String) :
    List (String × CacheEntry) :=
  cache.filter (fun kv => kv.fst != key)

/-- The network outcome of the single GET a probe issues. -/
inductive ProbeOutcome where
  | received (code : Nat) (elapsed : Nat)
  | timeout
  | transportError (msg : String)
  deriving Repr, DecidableEq

/-- `check_service_health`: the guard is `if not service.health_check_url`,
Python falsiness, so both an absent URL and the empty-string URL return
`unknown` immediately, before the history insert and the cache write;
otherwise the outcome is classified (`response.status < 300` is healthy,
any other received code is unhealthy with `error = "HTTP {code}"`, a
timeout is unhealthy with `error = "Timeout"` and no `response_time`, any
other transport failure is unhealthy with its message), one row is inserted
into `health_checks`, and the cache entry is overwritten via `setex`. -/
def checkServiceHealth (st : RegistryState) (service : Service)
    (outcome : ProbeOutcome) (now : Int) : RegistryState × ServiceStatus :=
  match service.health_check_url with
  | none => (st, { status := "unknown", last_check := none,
                   response_time := none, error := none })
  | some u =>
    if u = "" then
      (st, { status := "unknown", last_check := none,
             response_time := none, error := none })
    else
    let s : ServiceStatus :=
      match outcome with
      | .received code elapsed =>
        if code < 300 then
          { status := "healthy", last_check := some now,
            response_time := some elapsed, error := none }
        else
          { status := "unhealthy", last_check := some now,
            response_time := some elapsed,
            error := some ("HTTP " ++ toString code) }
      | .timeout =>
        { status := "unhealthy", last_check := none,
          response_time := none, error := some "Timeout" }
      | .transportError msg =>
        { status := "unhealthy", last_check := none,
          response_time := none, error := some msg }
    let row : HealthRow :=
      { service_name := service.name, status := s.status,
        response_time := s.response_time, error := s.error,
        checked_at := now }
    let st' : RegistryState :=
      { st with
        health_checks := st.health_checks ++ [row],
        cache := redisSetex st.cache ("health:" ++ service.name)
          { status := s.status, last_check := s.last_check,
            response_time := s.response_time, error := s.error }
          CACHE_TTL now }
    (st', s)

/-- The body of a register request before pydantic validation: every field
optional, so that missing required fields are representable. -/
structure RegisterRequest where
  name : Option String
  host : Option String
  port : Option Int
  path : Option String
  health_check_url : Option String
  tags : Option (List String)
  metadata : Option (List (String × String))
  deriving Repr, DecidableEq

/-- Pydantic validation of the `Service` model: `name`, `host`, `port` must
be present (their values are otherwise unconstrained); defaults are applied
to the remaining fields. -/
def validateService (req : RegisterRequest) : Except String Service :=
  match req.name, req.host, req.port with
  | some n, some h, some p =>
    .ok { name := n, host := h, port := p, path := req.path.getD "/",
          health_check_url := req.health_check_url,
          tags := req.tags.getD [], metadata := req.metadata.getD [] }
  | _, _, _ => .error "validation error: missing required field"

/-- The request body that serialising a full `Service` produces. -/
def reqOfService (s : Service) : RegisterRequest :=
  { name := some s.name, host := some s.host, port := some s.port,
    path := some s.path, health_check_url := s.health_check_url,
    tags := some s.tags, metadata := some s.metadata }

/-- The `INSERT ... ON CONFLICT (name) DO UPDATE` statement of
`register_service`: replace every column of an existing row with the new
values refreshing `updated_at`, or append a fresh row. -/
def upsertService (st : RegistryState) (s : Service) (now : Int) :
    RegistryState :=
  if st.services.any (fun r => r.service.name == s.name) then
    { st with services := st.services.map (fun r =>
        if r.service.name == s.name then
          { service := s, created_at := r.created_at, updated_at := now }
        else r) }
  else
    { st with services :=
        st.services ++ [{ service := s, created_at := now, updated_at := now }] }

/-- `register_service`: validation happens before the handler runs, so an
invalid body leaves the state untouched; otherwise the service is upserted
and the `service_count` gauge is incremented unconditionally. -/
def registerService (st : RegistryState) (req : RegisterRequest) (now : Int) :
    RegistryState × Except String String :=
  match validateService req with
  | .error e => (st, .error e)
  | .ok s =>
    let st' := upsertService st s now
    ({ st' with service_count := st'.service_count + 1 },
     .ok ("Service " ++ s.name ++ " registered successfully"))

/-- Postgres array overlap `tags && $1`: the two arrays share an element. -/
def tagsOverlap (a b : List String) : Bool :=
  a.any (fun t => b.contains t)

/-- Trying a LIKE sub-pattern against every suffix of the string: the
semantics of the `%` wildcard. -/
def likeTail (f : List Char → Bool) : List Char → Bool
  | [] => f []
  | c :: s' => f (c :: s') || likeTail f s'

/-- SQL LIKE pattern matching over characters: `%` matches any run, `_`
matches one character, backslash (the default Postgres escape, no ESCAPE
clause is given) makes the next character literal, anything else matches
itself.  A pattern ending in a bare escape matches nothing (Postgres
rejects such a pattern, so no row satisfies the filter). -/
def likeMatch : List Char → List Char → Bool
  | [], s => s.isEmpty
  | c :: ps, s =>
    if c = '\\' then
      match ps, s with
      | [], _ => false
      | _ :: _, [] => false
      | e :: ps', c' :: s' => (e == c') && likeMatch ps' s'
    else if c = '%' then
      likeTail (likeMatch ps) s
    else if c = '_' then
      match s with
      | [] => false
      | _ :: s' => likeMatch ps s'
    else
      match s with
      | [] => false
      | c' :: s' => (c == c') && likeMatch ps s'

/-- `name ILIKE '%pat%'` with the pattern interpolated unescaped, exactly
as `list_services` builds it: both sides are lowered (ASCII case folding)
and the wrapped pattern is matched with `%`/`_` as wildcards and backslash
as escape. -/
def ilikeSubstr (pat s : String) : Bool :=
  likeMatch ('%' :: pat.data.map Char.toLower ++ ['%'])
    (s.data.map Char.toLower)

/-- The WHERE clause `list_services` builds: the tag filter is added only
when `query.tags` is truthy (present and non-empty), the name filter only
when `query.name_pattern` is truthy (present and non-empty). -/
def passesStoreFilters (q : ServiceQuery) (r : ServiceRecord) : Bool :=
  (match q.tags with
   | some ts => if ts.isEmpty then true else tagsOverlap r.service.tags ts
   | none => true) &&
  (match q.name_pattern with
   | some p => if p == "" then true else ilikeSubstr p r.service.name
   | none => true)

/-- The `LEFT JOIN LATERAL ... ORDER BY checked_at DESC LIMIT 1` of
`list_services`, and the latest-row query of `get_service`: the most recent
`health_checks` row for `name`, if any. -/
def latestHealthRow (st : RegistryState) (name : String) : Option HealthRow :=
  (List.insertionSort (fun a b => b.checked_at ≤ a.checked_at)
    (st.health_checks.filter (fun h => h.service_name == name))).head?

/-- One element of the `services` array returned by `list_services`. -/
structure ListedService where
  name : String
  host : String
  port : Int
  path : String
  health_check_url : Option String
  tags : List String
  metadata : List (String × String)
  status : String
  last_check : Option Int
  response_time : Option Nat
  deriving Repr, DecidableEq

/-- The resolved `(health_status, last_check, response_time)` triple of the
loop body of `list_services`: the cache entry when present and unexpired,
else the columns of the joined latest history row (all null when the join
matched nothing). -/
def resolveListHealth (st : RegistryState) (name : String) (now : Int) :
    Option String × Option Int × Option Nat :=
  match redisGet st.cache ("health:" ++ name) now with
  | some p => (some p.status, p.last_check, p.response_time)
  | none =>
    let joined := latestHealthRow st name
    (joined.map (fun h => h.status),
     joined.map (fun h => h.checked_at),
     joined.bind (fun h => h.response_time))

/-- The loop body of `list_services` for one joined record: the post-join
status filter (`if query.status and health_status != query.status:
continue`, comparing the possibly-null resolved status), then the response
row with `status = health_status or "unknown"`. -/
def listedOf (st : RegistryState) (q : ServiceQuery) (now : Int)
    (r : ServiceRecord) : Option ListedService :=
  let resolved := resolveListHealth st r.service.name now
  let keep : Bool :=
    match q.status with
    | some s => if s == "" then true else resolved.fst == some s
    | none => true
  if keep then
    some { name := r.service.name, host := r.service.host,
           port := r.service.port, path := r.service.path,
           health_check_url := r.service.health_check_url,
           tags := r.service.tags, metadata := r.service.metadata,
           status := match resolved.fst with
             | some s => if s == "" then "unknown" else s
             | none => "unknown",
           last_check := resolved.snd.fst,
           response_time := resolved.snd.snd }
  else none

/-- `list_services`: SQL-level tag/name filtering and latest-row join,
`ORDER BY s.name`, then the per-record loop body `listedOf`. -/
def listServices (st : RegistryState) (q : ServiceQuery) (now : Int) :
    List ListedService :=
  (List.insertionSort (fun a b => ¬ b.service.name < a.service.name)
    (st.services.filter (passesStoreFilters q))).filterMap (listedOf st q now)

/-- The response of `get_service`. -/
structure GetResult where
  name : String
  host : String
  port : Int
  path : String
  health_check_url : Option String
  tags : List String
  metadata : List (String × String)
  health : CachedHealth
  created_at : Int
  updated_at : Int
  deriving Repr, DecidableEq

/-- `get_service`: 404 when the name is not in the store; otherwise the
health object comes from the unexpired cache entry when one exists, else
from the most recent `health_checks` row when one exists, else it is
`{"status": "unknown"}`. -/
def getService (st : RegistryState) (name : String) (now : Int) :
    Except String GetResult :=
  match st.services.find? (fun r => r.service.name == name) with
  | none => .error ("Service " ++ name ++ " not found")
  | some record =>
    let health_data : CachedHealth :=
      match redisGet st.cache ("health:" ++ name) now with
      | some p => p
      | none =>
        match latestHealthRow st name with
        | some row =>
          { status := row.status, last_check := some row.checked_at,
            response_time := row.response_time, error := row.error }
        | none =>
          { status := "unknown", last_check := none,
            response_time := none, error := none }
    .ok { name := record.service.name, host := record.service.host,
          port := record.service.port, path := record.service.path,
          health_check_url := record.service.health_check_url,
          tags := record.service.tags, metadata := record.service.metadata,
          health := health_data, created_at := record.created_at,
          updated_at := record.updated_at }

/-- `delete_service`: the SQL `DELETE FROM services WHERE name = $1` runs
first (a miss deletes nothing and a 404 is raised before the cache delete
and the gauge decrement); on a hit the `ON DELETE CASCADE` constraint of
`health_checks.service_name` removes the history rows of the deleted
record, then the cache key is deleted and the gauge decremented. -/
def deleteService (st : RegistryState) (name : String) :
    RegistryState × Except String String :=
  if st.services.any (fun r => r.service.name == name) then
    let st' : RegistryState :=
      { st with
        services := st.services.filter (fun r => r.service.name != name),
        health_checks :=
          st.health_checks.filter (fun h => h.service_name != name) }
    ({ st' with cache := redisDelete st'.cache ("health:" ++ name),
                service_count := st'.service_count - 1 },
     .ok ("Service " ++ name ++ " deleted successfully"))
  else
    (st, .error ("Service " ++ name ++ " not found"))

/-- One element of the `history` array returned by `get_health_history`. -/
structure HistEntry where
  status : String
  response_time : Option Nat
  error : Option String
  checked_at : Int
  deriving Repr, DecidableEq

/-- The rows `get_health_history` selects before the LIMIT: rows of the
service with `checked_at > now - hours*3600`. -/
def windowRows (st : RegistryState) (name : String) (hours now : Int) :
    List HealthRow :=
  st.health_checks.filter
    (fun h => h.service_name == name && decide (now - hours * 3600 < h.checked_at))

/-- `get_health_history`: select the rows of the trailing window ordered
newest first, `LIMIT 1000`; 404 exactly when that result set is empty. -/
def getHealthHistory (st : RegistryState) (name : String) (hours now : Int) :
    Except String (List HistEntry) :=
  let records :=
    (List.insertionSort (fun a b => b.checked_at ≤ a.checked_at)
      (windowRows st name hours now)).take 1000
  if records.isEmpty then
    .error ("No health history found for service " ++ name)
  else
    .ok (records.map (fun r =>
      { status := r.status, response_time := r.response_time,
        error := r.error, checked_at := r.checked_at }))

/-- An API-level operation affecting the gauge model. -/
inductive Op where
  | register (req : RegisterRequest) (now : Int)
  | delete (name : String)
  | probe (s : Service) (outcome : ProbeOutcome) (now : Int)
  deriving Repr

/-- Apply one operation to the state. -/
def applyOp (st : RegistryState) : Op → RegistryState
  | .register req now => (registerService st req now).fst
  | .delete name => (deleteService st name).fst
  | .probe s o now => (checkServiceHealth st s o now).fst

/-- Run a sequence of operations. -/
def runOps (st : RegistryState) : List Op → RegistryState
  | [] => st
  | op :: rest => runOps (applyOp st op) rest

/-- The gauge movement of one operation: +1 for a register that passes
validation, -1 for a delete of an existing name, 0 otherwise. -/
def gaugeDelta (st : RegistryState) : Op → Int
  | .register req _ => match validateService req with
    | .ok _ => 1
    | .error _ => 0
  | .delete name =>
    if st.services.any (fun r => r.service.name == name) then -1 else 0
  | .probe _ _ _ => 0

/-- Successful registers minus successful deletes along a run. -/
def netRegistrations (st : RegistryState) : List Op → Int
  | [] => 0
  | op :: rest => gaugeDelta st op + netRegistrations (applyOp st op) rest

/-- The health object of a `get_service` response, when the call succeeded. -/
def healthOf (e : Except String GetResult) : Option CachedHealth :=
  e.toOption.map (fun g => g.health)

/-! Concrete fixtures used to exercise the operations. -/

/-- A service without a health-check URL, tagged `a`. -/
def svcTagA : Service :=
  { name := "asvc", host := "h", port := 1, path := "/",
    health_check_url := none, tags := ["a"], metadata := [] }

/-- The same service with a health-check URL. -/
def svcUrl : Service :=
  { svcTagA with health_check_url := some "http://h:1/health" }

/-- The state after registering `svcTagA` on an empty database. -/
def stOneTagA : RegistryState :=
  (registerService initState (reqOfService svcTagA) 0).fst

/-- `stOneTagA` after one probe of `svcUrl` that received HTTP 200 at
instant 0 (one history row, one cache entry expiring at 60). -/
def stHist : RegistryState :=
  (checkServiceHealth stOneTagA svcUrl (ProbeOutcome.received 200 5) 0).fst

/-! Helper lemmas about `list_services`. -/

/-- Membership in a `list_services` response comes from a stored record
that passed the SQL-level filters and survived the loop body. -/
theorem mem_listServices_elim {st : RegistryState} {q : ServiceQuery}
    {now : Int} {x : ListedService} (hx : x ∈ listServices st q now) :
    ∃ r, r ∈ st.services ∧ passesStoreFilters q r = true ∧
      listedOf st q now r = some x := by
  unfold listServices at hx
  rcases List.mem_filterMap.mp hx with ⟨r, hr, hrx⟩
  have hr' := (List.perm_insertionSort
    (fun (a b : ServiceRecord) => ¬ b.service.name < a.service.name)
    (st.services.filter (passesStoreFilters q))).mem_iff.mp hr
  rcases List.mem_filter.mp hr' with ⟨hmem, hpass⟩
  exact ⟨r, hmem, hpass, hrx⟩

/-- A row produced by the loop body copies the record's name and tags. -/
theorem listedOf_fields {st : RegistryState} {q : ServiceQuery} {now : Int}
    {r : ServiceRecord} {x : ListedService}
    (h : listedOf st q now r = some x) :
    x.name = r.service.name ∧ x.tags = r.service.tags := by
  simp only [listedOf] at h
  split at h
  · injection h with h'
    subst h'
    exact ⟨rfl, rfl⟩
  · exact Option.noConfusion h

/-- Under a truthy status filter, a row survives the loop body only when
the resolved (possibly null) status equals the filter, and then the row
reports exactly that status. -/
theorem listedOf_status {st : RegistryState} {q : ServiceQuery} {now : Int}
    {r : ServiceRecord} {x : ListedService} {s : String}
    (hq : q.status = some s) (hs : s ≠ "")
    (h : listedOf st q now r = some x) :
    (resolveListHealth st r.service.name now).fst = some s ∧ x.status = s := by
  have hsb : (s == "") = false := beq_eq_false_iff_ne.mpr hs
  simp only [listedOf, hq, hsb, Bool.false_eq_true, if_false] at h
  split at h
  · rename_i hkeep
    have hfst : (resolveListHealth st r.service.name now).fst = some s :=
      eq_of_beq hkeep
    refine ⟨hfst, ?_⟩
    injection h with h'
    subst h'
    simp [hfst, hsb]
  · exact Option.noConfusion h

/-! Helper lemmas about the LIKE matcher. -/

/-- `likeTail` succeeds exactly on some suffix of the string. -/
theorem likeTail_eq_true (f : List Char → Bool) (s : List Char) :
    likeTail f s = true ↔ ∃ t, t <:+ s ∧ f t = true := by
  induction s with
  | nil => simp [likeTail]
  | cons c s' ih =>
    rw [likeTail, Bool.or_eq_true, ih]
    constructor
    · rintro (h | ⟨t, ht, hf⟩)
      · exact ⟨c :: s', List.suffix_rfl, h⟩
      · exact ⟨t, ht.trans (List.suffix_cons c s'), hf⟩
    · rintro ⟨t, ht, hf⟩
      rcases List.suffix_cons_iff.mp ht with rfl | ht'
      · exact Or.inl hf
      · exact Or.inr ⟨t, ht', hf⟩

/-- A wildcard- and escape-free pattern followed by a single trailing `%`
matches exactly the strings it prefixes. -/
theorem likeMatch_plain_percent (cs : List Char)
    (h : ∀ c ∈ cs, c ≠ '%' ∧ c ≠ '_' ∧ c ≠ '\\') (s : List Char) :
    likeMatch (cs ++ ['%']) s = true ↔ cs <+: s := by
  induction cs generalizing s with
  | nil =>
    rw [List.nil_append, likeMatch.eq_def]
    dsimp only
    rw [if_neg (by decide), if_pos rfl, likeTail_eq_true]
    simp [likeMatch.eq_1]
  | cons c cs' ih =>
    obtain ⟨hc1, hc2, hc3⟩ := h c (List.mem_cons_self c cs')
    have h' : ∀ x ∈ cs', x ≠ '%' ∧ x ≠ '_' ∧ x ≠ '\\' :=
      fun x hx => h x (List.mem_cons_of_mem _ hx)
    rw [List.cons_append, likeMatch.eq_def]
    dsimp only
    rw [if_neg hc3, if_neg hc1, if_neg hc2]
    cases s with
    | nil => simp
    | cons c' s' =>
      dsimp only
      rw [Bool.and_eq_true, beq_iff_eq, ih h' s', List.cons_prefix_cons]

/-- A wildcard- and escape-free pattern wrapped in `%...%` — the shape
`list_services` always builds — matches exactly the strings containing the
pattern as a contiguous substring. -/
theorem likeMatch_wrapped_iff (cs : List Char)
    (h : ∀ c ∈ cs, c ≠ '%' ∧ c ≠ '_' ∧ c ≠ '\\') (s : List Char) :
    likeMatch ('%' :: cs ++ ['%']) s = true ↔ cs <:+: s := by
  rw [List.cons_append, likeMatch.eq_def]
  dsimp only
  rw [if_neg (by decide), if_pos rfl, likeTail_eq_true,
    List.infix_iff_prefix_suffix]
  constructor
  · rintro ⟨t, ht, hf⟩
    exact ⟨t, (likeMatch_plain_percent cs h t).mp hf, ht⟩
  · rintro ⟨t, hp, ht⟩
    exact ⟨t, ht, (likeMatch_plain_percent cs h t).mpr hp⟩

/-- For patterns free of `%`, `_` and the escape character, the unescaped
`ILIKE '%pat%'` filter is exactly case-insensitive substring containment. -/
theorem ilikeSubstr_plain_iff (p s : String)
    (h : ∀ c ∈ p.data.map Char.toLower, c ≠ '%' ∧ c ≠ '_' ∧ c ≠ '\\') :
    ilikeSubstr p s = true ↔
      p.data.map Char.toLower <:+: s.data.map Char.toLower :=
  likeMatch_wrapped_iff (p.data.map Char.toLower) h (s.data.map Char.toLower)

/-- The record set `get_health_history` tests for emptiness is empty
exactly when no row of the service falls inside the trailing window. -/
theorem historyRecords_isEmpty (st : RegistryState) (name : String)
    (hours now : Int) :
    ((List.insertionSort (fun (a b : HealthRow) => b.checked_at ≤ a.checked_at)
      (windowRows st name hours now)).take 1000).isEmpty = true ↔
      windowRows st name hours now = [] := by
  have hperm := List.perm_insertionSort
    (fun (a b : HealthRow) => b.checked_at ≤ a.checked_at)
    (windowRows st name hours now)
  rw [List.isEmpty_iff, List.take_eq_nil_iff]
  constructor
  · rintro (h | h)
    · exact absurd h (by decide)
    · rw [h] at hperm
      exact hperm.symm.eq_nil
  · intro h
    right
    rw [← List.length_eq_zero, hperm.length_eq, h]
    rfl

/-! Claim theorems. -/

/-- C5: for every probe of a service with a `healthCheckURL` (a truthy one:
the code's `if not service.health_check_url` treats the empty string like
an absent URL and probes neither), a received status code in `[100,300)`
classifies healthy; any other received status code (HTTP status codes are
three digits, hence at least 100, so the remaining received codes are those
at or above 300) classifies unhealthy with the error carrying the code; a
timeout classifies unhealthy with a timeout error and no response time; any
other transport failure classifies unhealthy with its message.
`checkServiceHealth` is a total function, so the probe always returns a
result value. -/
theorem c5_probe_classification (st : RegistryState) (s : Service)
    (u : String) (now : Int) (code elapsed : Nat) (msg : String)
    (hu : s.health_check_url = some u) (hne : u ≠ "") :
    (100 ≤ code → code < 300 →
      (checkServiceHealth st s (ProbeOutcome.received code elapsed) now).snd.status
        = "healthy") ∧
    (300 ≤ code →
      (checkServiceHealth st s (ProbeOutcome.received code elapsed) now).snd.status
          = "unhealthy" ∧
      (checkServiceHealth st s (ProbeOutcome.received code elapsed) now).snd.error
          = some ("HTTP " ++ toString code)) ∧
    ((checkServiceHealth st s ProbeOutcome.timeout now).snd.status = "unhealthy" ∧
     (checkServiceHealth st s ProbeOutcome.timeout now).snd.error = some "Timeout" ∧
     (checkServiceHealth st s ProbeOutcome.timeout now).snd.response_time = none) ∧
    ((checkServiceHealth st s (ProbeOutcome.transportError msg) now).snd.status
        = "unhealthy" ∧
     (checkServiceHealth st s (ProbeOutcome.transportError msg) now).snd.error
        = some msg) := by
  refine ⟨fun _ h2 => ?_, fun h3 => ?_, ⟨?_, ?_, ?_⟩, ⟨?_, ?_⟩⟩
  · simp [checkServiceHealth, hu, hne, if_pos h2]
  · have hlt : ¬ code < 300 := by omega
    constructor <;> simp [checkServiceHealth, hu, hne, hlt]
  all_goals simp [checkServiceHealth, hu, hne]

/-- Witness for C5 at concrete inputs: HTTP 200 is healthy, HTTP 404 is
unhealthy with error `HTTP 404`, a timeout is unhealthy with error
`Timeout` and no response time. -/
theorem c5_witness :
    (checkServiceHealth initState svcUrl (ProbeOutcome.received 200 5) 0).snd.status
        = "healthy" ∧
    (checkServiceHealth initState svcUrl (ProbeOutcome.received 404 5) 0).snd.status
        = "unhealthy" ∧
    (checkServiceHealth initState svcUrl (ProbeOutcome.received 404 5) 0).snd.error
        = some "HTTP 404" ∧
    (checkServiceHealth initState svcUrl ProbeOutcome.timeout 0).snd.error
        = some "Timeout" ∧
    (checkServiceHealth initState svcUrl ProbeOutcome.timeout 0).snd.response_time
        = none := by
  have h200 := c5_probe_classification initState svcUrl "http://h:1/health" 0
    200 5 "m" rfl (by decide)
  have h404 := c5_probe_classification initState svcUrl "http://h:1/health" 0
    404 5 "m" rfl (by decide)
  exact ⟨h200.1 (by decide) (by decide), (h404.2.1 (by decide)).1,
    (h404.2.1 (by decide)).2, h404.2.2.1.2.1, h404.2.2.1.2.2⟩

/-- C6 counterexample: a register request with empty `name`, empty `host`
and port `0` passes validation, mutates the store, and succeeds — the
non-empty/positive part of the claimed validation does not exist. -/
theorem c6_counterexample :
    (registerService initState
        { name := some "", host := some "", port := some 0, path := none,
          health_check_url := none, tags := none, metadata := none } 0).snd
      = Except.ok "Service  registered successfully" ∧
    (registerService initState
        { name := some "", host := some "", port := some 0, path := none,
          health_check_url := none, tags := none, metadata := none } 0).fst.services.length
      = 1 := ⟨rfl, rfl⟩

/-- C6 amended: `Register` validates that `name`, `host` and `port` are all
present; a request missing any of them is rejected with a validation error
before any mutation of the store (the state is returned unchanged).  No
non-emptiness or positivity check is performed on the values. -/
theorem c6_register_validation (st : RegistryState) (req : RegisterRequest)
    (now : Int)
    (h : req.name = none ∨ req.host = none ∨ req.port = none) :
    registerService st req now =
      (st, Except.error "validation error: missing required field") := by
  obtain ⟨n, ho, p, pa, hc, tg, md⟩ := req
  cases n <;> cases ho <;> cases p <;> simp_all [registerService, validateService]

/-- Witness for C6: a request without a `name` is rejected and the state is
unchanged. -/
theorem c6_witness :
    registerService initState
        { name := none, host := some "h", port := some 1, path := none,
          health_check_url := none, tags := none, metadata := none } 3 =
      (initState, Except.error "validation error: missing required field") :=
  c6_register_validation initState
    { name := none, host := some "h", port := some 1, path := none,
      health_check_url := none, tags := none, metadata := none } 3
    (Or.inl rfl)

/-- C1 counterexample: `tags && $1` is Postgres array *overlap*, not
containment — a service tagged only `a` is returned by
`List({tags: ["a","b"]})` although its tag set does not contain `b`. -/
theorem c1_counterexample :
    (listServices stOneTagA
        { tags := some ["a", "b"], status := none, name_pattern := none } 0).map
        (fun x => x.name) = ["asvc"] ∧
    (listServices stOneTagA
        { tags := some ["a", "b"], status := none, name_pattern := none } 0).map
        (fun x => x.tags.contains "b") = [false] := ⟨rfl, rfl⟩

/-- C1 amended: for every `List` call with a non-empty tag-set filter, a
service is returned only if its tag set shares at least one of the listed
tags (overlap/OR semantics, not superset/AND); and for every `List` call
with a name pattern, a service is returned only if its name matches the
unescaped SQL pattern `%pat%` case-insensitively (`%`/`_` interpreted as
wildcards, backslash as escape) — which for patterns free of wildcard and
escape characters is exactly case-insensitive substring occurrence. -/
theorem c1_list_filters (st : RegistryState) (q : ServiceQuery) (now : Int)
    (x : ListedService) (hx : x ∈ listServices st q now) :
    (∀ ts, q.tags = some ts → ts ≠ [] → ∃ t, t ∈ x.tags ∧ t ∈ ts) ∧
    (∀ p, q.name_pattern = some p → ilikeSubstr p x.name = true) ∧
    (∀ p, q.name_pattern = some p →
      (∀ c ∈ p.data.map Char.toLower, c ≠ '%' ∧ c ≠ '_' ∧ c ≠ '\\') →
      p.data.map Char.toLower <:+: x.name.data.map Char.toLower) := by
  rcases mem_listServices_elim hx with ⟨r, _, hpass, hx'⟩
  rcases listedOf_fields hx' with ⟨hname, htags⟩
  unfold passesStoreFilters at hpass
  rw [Bool.and_eq_true] at hpass
  rcases hpass with ⟨hA, hB⟩
  have hsub : ∀ p, q.name_pattern = some p → ilikeSubstr p x.name = true := by
    intro p hp
    rw [hp] at hB
    by_cases hpe : p = ""
    · subst hpe
      exact (likeMatch_wrapped_iff [] (by simp) _).mpr List.nil_infix
    · have hpf : (p == "") = false := beq_eq_false_iff_ne.mpr hpe
      simp only [hpf, Bool.false_eq_true, if_false] at hB
      rw [hname]
      exact hB
  refine ⟨?_, hsub, ?_⟩
  · intro ts hts hne
    rw [hts] at hA
    have hemp : ts.isEmpty = false := by
      cases ts with
      | nil => exact absurd rfl hne
      | cons a l => rfl
    simp only [hemp, Bool.false_eq_true, if_false, tagsOverlap,
      List.any_eq_true] at hA
    rcases hA with ⟨t, htmem, htc⟩
    exact ⟨t, htags ▸ htmem, by simpa using htc⟩
  · intro p hp hplain
    exact (ilikeSubstr_plain_iff p x.name hplain).mp (hsub p hp)

/-- Witness for C1 at a concrete input: the single service of `stOneTagA`
is returned under the filter `{tags: ["a"], namePattern: "SVC"}`, the
pattern matches its name under the ILIKE semantics, and — the pattern being
wildcard-free — occurs in it as a case-insensitive substring. -/
theorem c1_witness :
    ({ name := "asvc", host := "h", port := 1, path := "/",
       health_check_url := none, tags := ["a"], metadata := [],
       status := "unknown", last_check := none,
       response_time := none } : ListedService) ∈
      listServices stOneTagA
        { tags := some ["a"], status := none, name_pattern := some "SVC" } 0 ∧
    ilikeSubstr "SVC" "asvc" = true ∧
    "SVC".data.map Char.toLower <:+: "asvc".data.map Char.toLower := by
  have hmem :
      ({ name := "asvc", host := "h", port := 1, path := "/",
         health_check_url := none, tags := ["a"], metadata := [],
         status := "unknown", last_check := none,
         response_time := none } : ListedService) ∈
        listServices stOneTagA
          { tags := some ["a"], status := none, name_pattern := some "SVC" } 0 := by
    decide
  have h := c1_list_filters stOneTagA
    { tags := some ["a"], status := none, name_pattern := some "SVC" } 0 _ hmem
  exact ⟨hmem, h.2.1 "SVC" rfl, h.2.2 "SVC" rfl (by decide)⟩

/-- C4 counterexample: a registered service with no cache entry and no
history resolves to a null status inside the loop, and the filter
`status = "unknown"` compares that null against `"unknown"` and drops the
service — it is *not* retained by the `unknown` filter. -/
theorem c4_counterexample :
    listServices stOneTagA
        { tags := none, status := some "unknown", name_pattern := none } 0 = [] ∧
    stOneTagA.services.map (fun r => r.service.name) = ["asvc"] ∧
    stOneTagA.cache = [] ∧
    stOneTagA.health_checks = [] := ⟨rfl, rfl, rfl, rfl⟩

/-- C4 amended: under a truthy status filter every returned service's
resolved status equals the filter value; a service whose health cannot be
resolved from cache or history is excluded from every status filter,
including `unknown` (its status becomes `unknown` only in the response
body, after the filter has run). -/
theorem c4_status_filter (st : RegistryState) (q : ServiceQuery) (now : Int)
    (s : String) (hq : q.status = some s) (hs : s ≠ "") :
    (∀ x, x ∈ listServices st q now → x.status = s) ∧
    (∀ r, r ∈ st.services →
      redisGet st.cache ("health:" ++ r.service.name) now = none →
      latestHealthRow st r.service.name = none →
      ∀ x, x ∈ listServices st q now → x.name ≠ r.service.name) := by
  constructor
  · intro x hx
    rcases mem_listServices_elim hx with ⟨r, _, _, hx'⟩
    exact (listedOf_status hq hs hx').2
  · intro r hr hc hjoin x hx hne
    rcases mem_listServices_elim hx with ⟨r', _, _, hx'⟩
    have h1 := (listedOf_status hq hs hx').1
    have hn := (listedOf_fields hx').1
    have heq : r'.service.name = r.service.name := by rw [← hn, hne]
    rw [heq] at h1
    have hres : resolveListHealth st r.service.name now = (none, none, none) := by
      simp [resolveListHealth, hc, hjoin]
    rw [hres] at h1
    exact Option.noConfusion h1

/-- Witness for C4 at a concrete input: with a fresh healthy cache entry,
`List({status: "healthy"})` returns the service and reports exactly the
filtered status. -/
theorem c4_witness :
    ({ name := "asvc", host := "h", port := 1, path := "/",
       health_check_url := none, tags := ["a"], metadata := [],
       status := "healthy", last_check := some 0,
       response_time := some 5 } : ListedService) ∈
      listServices stHist
        { tags := none, status := some "healthy", name_pattern := none } 10 ∧
    ({ name := "asvc", host := "h", port := 1, path := "/",
       health_check_url := none, tags := ["a"], metadata := [],
       status := "healthy", last_check := some 0,
       response_time := some 5 } : ListedService).status = "healthy" := by
  have hmem :
      ({ name := "asvc", host := "h", port := 1, path := "/",
         health_check_url := none, tags := ["a"], metadata := [],
         status := "healthy", last_check := some 0,
         response_time := some 5 } : ListedService) ∈
        listServices stHist
          { tags := none, status := some "healthy", name_pattern := none } 10 := by
    decide
  exact ⟨hmem, (c4_status_filter stHist
    { tags := none, status := some "healthy", name_pattern := none } 10
    "healthy" rfl (by decide)).1 _ hmem⟩

/-- C3 counterexample: `stHist` holds one history row for `asvc` (checked
at instant 0), yet a history request whose 24-hour window starts later
reports NotFound instead of an empty list — the code conflates "no rows in
window" with "no history at all". -/
theorem c3_counterexample :
    getHealthHistory stHist "asvc" 24 1000000 =
      Except.error "No health history found for service asvc" ∧
    stHist.health_checks.map (fun h => h.service_name) = ["asvc"] := by
  constructor
  · rfl
  · rfl

/-- C3 amended: `History(name, window)` reports NotFound exactly when no
history row of the service falls inside the trailing window — also when
older history for the name exists — and a successful response is never the
empty list. -/
theorem c3_history_notfound_iff (st : RegistryState) (name : String)
    (hours now : Int) :
    (getHealthHistory st name hours now =
        Except.error ("No health history found for service " ++ name) ↔
      windowRows st name hours now = []) ∧
    (∀ l, getHealthHistory st name hours now = Except.ok l → l ≠ []) := by
  have hiff := historyRecords_isEmpty st name hours now
  constructor
  · constructor
    · intro herr
      by_cases h : ((List.insertionSort
          (fun (a b : HealthRow) => b.checked_at ≤ a.checked_at)
          (windowRows st name hours now)).take 1000).isEmpty = true
      · exact hiff.mp h
      · exfalso
        simp only [getHealthHistory] at herr
        rw [if_neg h] at herr
        exact Except.noConfusion herr
    · intro hw
      simp only [getHealthHistory]
      rw [if_pos (hiff.mpr hw)]
  · intro l hl
    by_cases h : ((List.insertionSort
        (fun (a b : HealthRow) => b.checked_at ≤ a.checked_at)
        (windowRows st name hours now)).take 1000).isEmpty = true
    · simp only [getHealthHistory] at hl
      rw [if_pos h] at hl
      exact Except.noConfusion hl
    · simp only [getHealthHistory] at hl
      rw [if_neg h] at hl
      injection hl with hl'
      intro hnil
      rw [← hl'] at hnil
      rw [List.map_eq_nil_iff] at hnil
      rw [← List.isEmpty_iff] at hnil
      exact h hnil

/-- Witness for C3 at concrete inputs: the empty database reports NotFound
for any name, and `stHist` queried inside the window returns a non-empty
list. -/
theorem c3_witness :
    getHealthHistory initState "web" 24 0 =
      Except.error "No health history found for service web" ∧
    ([({ status := "healthy", response_time := some 5, error := none,
         checked_at := 0 } : HistEntry)] : List HistEntry) ≠ [] := by
  constructor
  · exact (c3_history_notfound_iff initState "web" 24 0).1.mpr rfl
  · exact (c3_history_notfound_iff stHist "asvc" 24 10).2
      [{ status := "healthy", response_time := some 5, error := none,
         checked_at := 0 }] rfl

/-- C7: `Get(name)` of a registered service resolves health from the cache
entry when one is present and unexpired; otherwise from the most recent
history row when any exists; and only when neither exists does it resolve
to `unknown` — so neither cache absence nor expiry downgrades the reported
status while history exists. -/
theorem c7_get_reads_cache_then_history (st : RegistryState) (name : String)
    (now : Int) (rec : ServiceRecord)
    (hfind : st.services.find? (fun r => r.service.name == name) = some rec) :
    (∀ p, redisGet st.cache ("health:" ++ name) now = some p →
      healthOf (getService st name now) = some p) ∧
    (redisGet st.cache ("health:" ++ name) now = none →
      (∀ row, latestHealthRow st name = some row →
        healthOf (getService st name now) =
          some { status := row.status, last_check := some row.checked_at,
                 response_time := row.response_time, error := row.error }) ∧
      (latestHealthRow st name = none →
        healthOf (getService st name now) =
          some { status := "unknown", last_check := none,
                 response_time := none, error := none })) := by
  refine ⟨fun p hp => ?_, fun hc => ⟨fun row hrow => ?_, fun hrow => ?_⟩⟩ <;>
    simp [getService, healthOf, hfind, Except.toOption]
  · rw [hp]
  · rw [hc, hrow]
  · rw [hc, hrow]

/-- Witness for C7 at a concrete input: in `stHist` at instant 100 the
cache entry (expiry 60) has lapsed, and `Get` still reports the healthy
verdict, sourced from the history row. -/
theorem c7_witness :
    healthOf (getService stHist "asvc" 100) =
      some { status := "healthy", last_check := some 0,
             response_time := some 5, error := none } :=
  ((c7_get_reads_cache_then_history stHist "asvc" 100
      { service := svcTagA, created_at := 0, updated_at := 0 }
      (by decide)).2 (by decide)).1
    { service_name := "asvc", status := "healthy", response_time := some 5,
      error := none, checked_at := 0 } (by decide)

/-- C8: after a successful `Delete(name)`, `Get(name)` and
`History(name, window)` report NotFound, the cache holds nothing for the
name, and no history row for the name remains; deleting an unregistered
name reports NotFound and leaves the state exactly unchanged. -/
theorem c8_delete_cascade (st : RegistryState) (name : String) :
    (∀ st' m, deleteService st name = (st', Except.ok m) →
      (∀ now, getService st' name now =
        Except.error ("Service " ++ name ++ " not found")) ∧
      (∀ hours now, getHealthHistory st' name hours now =
        Except.error ("No health history found for service " ++ name)) ∧
      (∀ now, redisGet st'.cache ("health:" ++ name) now = none) ∧
      st'.health_checks.all (fun h => h.service_name != name) = true) ∧
    (st.services.find? (fun r => r.service.name == name) = none →
      deleteService st name =
        (st, Except.error ("Service " ++ name ++ " not found"))) := by
  constructor
  · intro st' m hdel
    by_cases hex : st.services.any (fun r => r.service.name == name) = true
    on_goal 2 =>
      exfalso
      simp only [deleteService] at hdel
      rw [if_neg hex] at hdel
      exact Except.noConfusion (congrArg Prod.snd hdel)
    simp only [deleteService] at hdel
    rw [if_pos hex] at hdel
    have hst' := congrArg Prod.fst hdel
    simp only at hst'
    subst hst'
    refine ⟨fun now => ?_, fun hours now => ?_, fun now => ?_, ?_⟩
    · have hfind : (st.services.filter
          (fun r => r.service.name != name)).find?
          (fun r => r.service.name == name) = none := by
        rw [List.find?_eq_none]
        intro x hx
        rcases List.mem_filter.mp hx with ⟨_, hxf⟩
        simp only [bne_iff_ne, ne_eq] at hxf
        simp [hxf]
      simp [getService, hfind]
    · have hw : windowRows
          { services := st.services.filter (fun r => r.service.name != name),
            health_checks :=
              st.health_checks.filter (fun h => h.service_name != name),
            cache := redisDelete st.cache ("health:" ++ name),
            service_count := st.service_count - 1 }
          name hours now = [] := by
        unfold windowRows
        simp only [List.filter_eq_nil_iff]
        intro a ha
        rcases List.mem_filter.mp ha with ⟨_, haf⟩
        simp only [bne_iff_ne, ne_eq] at haf
        simp [haf]
      have := (historyRecords_isEmpty _ name hours now).mpr hw
      simp only [getHealthHistory]
      rw [if_pos this]
    · have hfind : ((redisDelete
          (st.cache) ("health:" ++ name)).find?
          (fun kv => kv.fst == ("health:" ++ name))) = none := by
        rw [List.find?_eq_none]
        intro kv hkv
        rcases List.mem_filter.mp hkv with ⟨_, hkf⟩
        simp only [bne_iff_ne, ne_eq] at hkf
        simp [hkf]
      simp [redisGet, hfind]
    · rw [List.all_eq_true]
      intro h hh
      exact (List.mem_filter.mp hh).2
  · intro hnone
    have hex : st.services.any (fun r => r.service.name == name) = false := by
      rw [List.any_eq_false]
      intro x hx
      have := List.find?_eq_none.mp hnone x hx
      simpa using this
    simp [deleteService, hex]

/-- Witness for C8 at concrete inputs: deleting `asvc` from `stHist`
succeeds and afterwards `Get`, `History` and the cache all miss; deleting
a never-registered name from the empty state reports NotFound and returns
the state unchanged. -/
theorem c8_witness :
    getService (deleteService stHist "asvc").fst "asvc" 3 =
      Except.error "Service asvc not found" ∧
    getHealthHistory (deleteService stHist "asvc").fst "asvc" 24 3 =
      Except.error "No health history found for service asvc" ∧
    redisGet (deleteService stHist "asvc").fst.cache "health:asvc" 3 = none ∧
    deleteService initState "ghost" =
      (initState, Except.error "Service ghost not found") := by
  have h := (c8_delete_cascade stHist "asvc").1
    (deleteService stHist "asvc").fst "Service asvc deleted successfully" rfl
  exact ⟨h.1 3, h.2.1 24 3, h.2.2.1 3,
    (c8_delete_cascade initState "ghost").2 rfl⟩

/-- In the conflict branch of the upsert, the first record carrying the
name is replaced in place and is what a later lookup finds. -/
theorem find?_map_replace (s : Service) (now : Int) :
    ∀ l : List ServiceRecord,
      l.any (fun r => r.service.name == s.name) = true →
      ∃ c, (l.map (fun r =>
          if r.service.name == s.name then
            { service := s, created_at := r.created_at, updated_at := now }
          else r)).find? (fun r => r.service.name == s.name) =
        some { service := s, created_at := c, updated_at := now }
  | [], h => by simp at h
  | r :: l, h => by
    by_cases hr : (r.service.name == s.name) = true
    · refine ⟨r.created_at, ?_⟩
      rw [List.map_cons, if_pos hr]
      exact List.find?_cons_of_pos _ (by simp)
    · have h' : l.any (fun r => r.service.name == s.name) = true := by
        simp only [List.any_cons, Bool.or_eq_true] at h
        rcases h with h | h
        · exact absurd h hr
        · exact h
      rcases find?_map_replace s now l h' with ⟨c, hc⟩
      refine ⟨c, ?_⟩
      have hrf : (r.service.name == s.name) = false := by
        cases hb : (r.service.name == s.name)
        · rfl
        · exact absurd hb hr
      rw [List.map_cons, if_neg hr]
      simp only [List.find?, hrf]
      exact hc

/-- After an upsert the name maps to a record holding exactly the new
column values and a refreshed `updated_at`. -/
theorem find?_upsert (st : RegistryState) (s : Service) (now : Int) :
    ∃ c, (upsertService st s now).services.find?
        (fun r => r.service.name == s.name) =
      some { service := s, created_at := c, updated_at := now } := by
  unfold upsertService
  split
  · rename_i hany
    exact find?_map_replace s now st.services hany
  · rename_i hany
    refine ⟨now, ?_⟩
    have hnone : st.services.find? (fun r => r.service.name == s.name) = none := by
      rw [List.find?_eq_none]
      intro x hx hpx
      exact hany (List.any_eq_true.mpr ⟨x, hx, hpx⟩)
    show (st.services ++
      ([{ service := s, created_at := now, updated_at := now }] :
        List ServiceRecord)).find? (fun r => r.service.name == s.name) =
      some { service := s, created_at := now, updated_at := now }
    rw [List.find?_append, hnone]
    simp

/-- An upsert leaves the stored names unchanged on conflict and appends the
new name otherwise. -/
theorem upsert_names (st : RegistryState) (s : Service) (now : Int) :
    (upsertService st s now).services.map (fun r => r.service.name) =
      if st.services.any (fun r => r.service.name == s.name) then
        st.services.map (fun r => r.service.name)
      else st.services.map (fun r => r.service.name) ++ [s.name] := by
  unfold upsertService
  split
  · rename_i h
    simp only [List.map_map]
    apply List.map_congr_left
    intro r _
    by_cases hrn : (r.service.name == s.name) = true
    · simp only [Function.comp_apply, if_pos hrn]
      exact (eq_of_beq hrn).symm
    · simp only [Function.comp_apply, if_neg hrn]
  · rename_i h
    simp [List.map_append]

/-- An upsert preserves distinctness of the stored names. -/
theorem upsert_nodup (st : RegistryState) (s : Service) (now : Int)
    (h : (st.services.map (fun r => r.service.name)).Nodup) :
    ((upsertService st s now).services.map
      (fun r => r.service.name)).Nodup := by
  rw [upsert_names]
  split
  · exact h
  · rename_i hany
    rw [List.nodup_append]
    refine ⟨h, List.nodup_singleton _, ?_⟩
    intro a ha hb
    rcases List.mem_map.mp ha with ⟨r, hr, hrn⟩
    have haeq : a = s.name := by simpa using hb
    subst haeq
    exact hany (List.any_eq_true.mpr ⟨r, hr, beq_iff_eq.mpr hrn⟩)

/-- C9: registering the same name twice (with possibly different attribute
values) never errors, leaves exactly one stored record for the name, and
that record carries the second call's attributes with `updated_at`
refreshed to the second call's instant. -/
theorem c9_register_upsert (st : RegistryState) (s1 s2 : Service)
    (now1 now2 : Int)
    (hnodup : (st.services.map (fun r => r.service.name)).Nodup)
    (hname : s1.name = s2.name) :
    (registerService st (reqOfService s1) now1).snd =
      Except.ok ("Service " ++ s1.name ++ " registered successfully") ∧
    (registerService (registerService st (reqOfService s1) now1).fst
        (reqOfService s2) now2).snd =
      Except.ok ("Service " ++ s2.name ++ " registered successfully") ∧
    ((registerService (registerService st (reqOfService s1) now1).fst
        (reqOfService s2) now2).fst.services.map
        (fun r => r.service.name)).count s2.name = 1 ∧
    ∃ c, (registerService (registerService st (reqOfService s1) now1).fst
        (reqOfService s2) now2).fst.services.find?
        (fun r => r.service.name == s2.name) =
      some { service := s2, created_at := c, updated_at := now2 } := by
  have hA : (registerService st (reqOfService s1) now1).fst.services =
      (upsertService st s1 now1).services := rfl
  have hnd1 := upsert_nodup st s1 now1 hnodup
  have hmem1 : s1.name ∈
      (upsertService st s1 now1).services.map (fun r => r.service.name) := by
    rw [upsert_names]
    split
    · rename_i hany
      rcases List.any_eq_true.mp hany with ⟨r, hr, hb⟩
      exact (eq_of_beq hb) ▸ List.mem_map_of_mem _ hr
    · exact List.mem_append_right _ (List.mem_singleton.mpr rfl)
  have hany2 : (registerService st (reqOfService s1) now1).fst.services.any
      (fun r => r.service.name == s2.name) = true := by
    rw [hA]
    rcases List.mem_map.mp hmem1 with ⟨r, hr, hrn⟩
    exact List.any_eq_true.mpr ⟨r, hr, beq_iff_eq.mpr (hrn.trans hname)⟩
  refine ⟨rfl, rfl, ?_, ?_⟩
  · show ((upsertService (registerService st (reqOfService s1) now1).fst
        s2 now2).services.map (fun r => r.service.name)).count s2.name = 1
    rw [upsert_names, if_pos hany2, hA]
    have hle := List.nodup_iff_count_le_one.mp hnd1 s2.name
    have hpos := List.count_pos_iff.mpr (hname ▸ hmem1)
    omega
  · exact find?_upsert (registerService st (reqOfService s1) now1).fst s2 now2

/-- Witness for C9 at concrete inputs: registering `asvc` twice with
different hosts leaves a single record for the name. -/
theorem c9_witness :
    ((registerService
        (registerService initState (reqOfService svcTagA) 0).fst
        (reqOfService { svcTagA with host := "h2" }) 1).fst.services.map
        (fun r => r.service.name)).count "asvc" = 1 :=
  (c9_register_upsert initState svcTagA { svcTagA with host := "h2" } 0 1
    (by decide) rfl).2.2.1

/-- One operation moves the gauge by exactly its delta: +1 for a register
that passes validation (an upsert of an existing name included), -1 for a
delete of an existing name, 0 otherwise. -/
theorem applyOp_service_count (st : RegistryState) (op : Op) :
    (applyOp st op).service_count = st.service_count + gaugeDelta st op := by
  cases op with
  | register req now =>
    simp only [applyOp, registerService, gaugeDelta]
    cases hv : validateService req with
    | error e => simp
    | ok s =>
      have hc : (upsertService st s now).service_count = st.service_count := by
        unfold upsertService
        split <;> rfl
      simp [hc]
  | delete name =>
    simp only [applyOp, deleteService, gaugeDelta]
    by_cases h : st.services.any (fun r => r.service.name == name) = true
    · rw [if_pos h, if_pos h]
      simp [Int.sub_eq_add_neg]
    · rw [if_neg h, if_neg h]
      simp
  | probe s o now =>
    simp only [applyOp, gaugeDelta]
    cases hu : s.health_check_url with
    | none => simp [checkServiceHealth, hu]
    | some u =>
      by_cases hue : u = "" <;> simp [checkServiceHealth, hu, hue]

/-- A run of operations moves the gauge by the net of its per-operation
deltas. -/
theorem runOps_service_count (st : RegistryState) (ops : List Op) :
    (runOps st ops).service_count = st.service_count + netRegistrations st ops := by
  induction ops generalizing st with
  | nil => simp [runOps, netRegistrations]
  | cons op rest ih =>
    simp only [runOps, netRegistrations]
    rw [ih, applyOp_service_count]
    ring

/-- C10: along any run of operations the `service_registry_services_total`
gauge equals its starting value plus the number of registers that passed
validation minus the number of deletes of existing names — and it is not
the number of distinct stored services: registering the same service twice
from the empty state leaves the gauge at 2 with one stored record. -/
theorem c10_gauge_counts_calls :
    (∀ (st : RegistryState) (ops : List Op),
      (runOps st ops).service_count =
        st.service_count + netRegistrations st ops) ∧
    (runOps initState
        [Op.register (reqOfService svcTagA) 0,
         Op.register (reqOfService svcTagA) 1]).service_count = 2 ∧
    (runOps initState
        [Op.register (reqOfService svcTagA) 0,
         Op.register (reqOfService svcTagA) 1]).services.length = 1 :=
  ⟨runOps_service_count, rfl, rfl⟩

end ServiceRegistry
